import Mathlib

/-!
# The harness-synthesis-and-build pipeline of `main.go`

A shallow embedding of `src/main.go`.  The program is one function, `main`,
that talks to four collaborators: the package query (`packages.Load`,
`packages.PrintErrors`), the file system (`ioutil.TempFile`, the template
writing into the file, `Close`, `os.Remove`), the compiler subprocess
(`exec.Command("go", ...).Run()`) and the process itself (`log.Fatal`,
`os.Exit`).  The embedding threads an explicit trace of the calls made to the
collaborators; what the collaborators answer is a parameter (`World`).

Go strings are modelled as Lean strings, that is as the sequence of code
points that a `range` over the string yields for well-formed UTF-8.
-/

set_option maxRecDepth 100000

namespace FuzzBuild

/-! ## The pieces of the Go standard library that `main` calls -/

/-- Go `strings.HasPrefix(s, prefix)`. -/
def strings.HasPrefix (s pre : String) : Bool :=
  pre.data.isPrefixOf s.data

/-- The search loop of Go `strings.Contains`: is `sub` found at some offset of the text. -/
def strings.containsFrom (sub : List Char) : List Char → Bool
  | [] => sub.isPrefixOf []
  | c :: cs => sub.isPrefixOf (c :: cs) || strings.containsFrom sub cs

/-- Go `strings.Contains(s, substr)`. -/
def strings.Contains (s substr : String) : Bool :=
  strings.containsFrom substr.data s.data

/-- The Unicode general categories that `unicode.IsLetter`, `unicode.IsUpper`,
`unicode.IsLower` and `unicode.IsDigit` look at (`L` is `Lu|Ll|Lt|Lm|Lo`, `Upper` is
`Lu`, `Lower` is `Ll`, `Digit` is `Nd`); every other category is `other`. -/
inductive Category where
  | Lu
  | Ll
  | Lt
  | Lm
  | Lo
  | Nd
  | other
  deriving DecidableEq, Repr

/-- The range tables of the Go runtime, which are data and not code: the general
category of the code points from U+0080 on, and the printable code points above U+00FF
(the tables behind `strconv.IsPrint`).  They are a parameter of the development. -/
structure Tables where
  category : Char → Category
  print : Char → Bool

/-- The general category of a code point: ASCII is spelled out, the rest is read from the
tables. -/
def unicode.category (T : Tables) (r : Char) : Category :=
  if r.toNat < 0x80 then
    if r.isUpper then .Lu
    else if r.isLower then .Ll
    else if r.isDigit then .Nd
    else .other
  else T.category r

/-- Go `unicode.IsLetter`. -/
def unicode.IsLetter (T : Tables) (r : Char) : Bool :=
  match unicode.category T r with
  | .Lu | .Ll | .Lt | .Lm | .Lo => true
  | _ => false

/-- Go `unicode.IsUpper`. -/
def unicode.IsUpper (T : Tables) (r : Char) : Bool :=
  decide (unicode.category T r = .Lu)

/-- Go `unicode.IsLower`. -/
def unicode.IsLower (T : Tables) (r : Char) : Bool :=
  decide (unicode.category T r = .Ll)

/-- Go `unicode.IsDigit`: within Latin-1 the digits are `0` to `9`. -/
def unicode.IsDigit (T : Tables) (r : Char) : Bool :=
  if r.toNat ≤ 0xFF then decide (0x30 ≤ r.toNat ∧ r.toNat ≤ 0x39)
  else decide (unicode.category T r = .Nd)

/-- Go `utf8.RuneError`. -/
def utf8.RuneError : Char := Char.ofNat 0xFFFD

/-- Go `utf8.DecodeRuneInString`, the rune only: the first code point, `RuneError` for
the empty string. -/
def utf8.DecodeRuneInString (s : String) : Char :=
  match s.data with
  | [] => utf8.RuneError
  | c :: _ => c

/-- The keyword table of `go/token`. -/
def token.keywords : List String :=
  ["break", "case", "chan", "const", "continue", "default", "defer", "else",
   "fallthrough", "for", "func", "go", "goto", "if", "import", "interface", "map",
   "package", "range", "return", "select", "struct", "switch", "type", "var"]

/-- Go `token.IsKeyword`. -/
def token.IsKeyword (name : String) : Bool :=
  token.keywords.contains name

/-- The loop of Go `token.IsIdentifier`: `for i, c := range name`, with `i` the byte
offset of `c`. -/
def token.identLoop (T : Tables) : Nat → List Char → Bool
  | _, [] => true
  | i, c :: cs =>
    if !unicode.IsLetter T c && c != '_' && (i == 0 || !unicode.IsDigit T c) then false
    else token.identLoop T (i + c.utf8Size) cs

/-- Go `token.IsIdentifier`. -/
def token.IsIdentifier (T : Tables) (name : String) : Bool :=
  if name == "" || token.IsKeyword name then false
  else token.identLoop T 0 name.data

/-- Go `token.IsExported`. -/
def token.IsExported (T : Tables) (name : String) : Bool :=
  unicode.IsUpper T (utf8.DecodeRuneInString name)

/-- Go `strconv.IsPrint`: Latin-1 is decided in the code, the rest in the tables. -/
def strconv.IsPrint (T : Tables) (r : Char) : Bool :=
  if r.toNat ≤ 0xFF then
    if 0x20 ≤ r.toNat ∧ r.toNat ≤ 0x7E then true
    else if 0xA1 ≤ r.toNat ∧ r.toNat ≤ 0xFF then r.toNat != 0xAD
    else false
  else T.print r

/-- Go `lowerhex[n & 0xF]`. -/
def strconv.hex (n : Nat) : Char :=
  "0123456789abcdef".data.getD (n % 16) '0'

/-- Go `strconv.appendEscapedRune` with the double quote as quote character, neither
ASCII-only nor graphic-only (the call made for the verb `%q`).  A Lean `Char` is always a
valid rune, so the branch for invalid runes is not there. -/
def strconv.appendEscapedRune (T : Tables) (r : Char) : List Char :=
  if r = '\x22' ∨ r = '\\' then ['\\', r]
  else if strconv.IsPrint T r then [r]
  else if r = '\x07' then ['\\', 'a']
  else if r = '\x08' then ['\\', 'b']
  else if r = '\x0c' then ['\\', 'f']
  else if r = '\n' then ['\\', 'n']
  else if r = '\r' then ['\\', 'r']
  else if r = '\t' then ['\\', 't']
  else if r = '\x0b' then ['\\', 'v']
  else if r.toNat < 0x20 ∨ r.toNat = 0x7f then
    ['\\', 'x', strconv.hex (r.toNat / 16), strconv.hex r.toNat]
  else if r.toNat < 0x10000 then
    ['\\', 'u', strconv.hex (r.toNat / 4096), strconv.hex (r.toNat / 256),
      strconv.hex (r.toNat / 16), strconv.hex r.toNat]
  else
    ['\\', 'U', strconv.hex (r.toNat / 268435456), strconv.hex (r.toNat / 16777216),
      strconv.hex (r.toNat / 1048576), strconv.hex (r.toNat / 65536),
      strconv.hex (r.toNat / 4096), strconv.hex (r.toNat / 256),
      strconv.hex (r.toNat / 16), strconv.hex r.toNat]

/-- Go `strconv.Quote`, which is what `printf "%q"` prints for a string. -/
def strconv.Quote (T : Tables) (s : String) : String :=
  ⟨'\x22' :: (s.data.flatMap (strconv.appendEscapedRune T) ++ ['\x22'])⟩

/-! ## The collaborators of `main` -/

/-- A package as `packages.Load` returns it under `Mode: packages.NeedName`: the two
fields `main` reads. -/
structure Package where
  PkgPath : String
  Name : String
  deriving DecidableEq, Repr

/-- What the collaborators answer.  An error is the text of its `Error()`. -/
structure World where
  /-- The answer of `packages.Load` for build flags and a pattern: an error, or the packages matched. -/
  Load : List String → String → Except String (List Package)
  /-- The count `packages.PrintErrors` returns: the number of errors it printed. -/
  PrintErrors : List Package → Nat
  /-- The answer of `ioutil.TempFile(dir, pattern)`: an error, or the name of the file created. -/
  TempFile : String → String → Except String String
  /-- The error of `mainTmpl.Execute` writing a text to the named file, if any. -/
  Execute : String → String → Option String
  /-- The error of `Close` on the named file, if any. -/
  Close : String → Option String
  /-- The error of `cmd.Run()` for a program and its arguments, if any (a non-zero exit is one). -/
  Run : String → List String → Option String

/-- One call of `main` to a collaborator, in the order the calls are made. -/
inductive Event where
  /-- `packages.Load` is issued with these build flags and this pattern. -/
  | Load (buildFlags : List String) (pattern : String)
  /-- `packages.PrintErrors` is called on the packages loaded. -/
  | PrintErrors (pkgs : List Package)
  /-- `ioutil.TempFile(dir, pattern)` is called; `created` is the file it made, if it made one. -/
  | TempFile (dir pattern : String) (created : Option String)
  /-- The template is executed into the named file: this text is written. -/
  | Execute (file text : String)
  /-- The named file is closed. -/
  | Close (file : String)
  /-- The subprocess `name args...` is started and waited for. -/
  | Command (name : String) (args : List String)
  /-- `os.Remove` on the named file. -/
  | Remove (file : String)
  /-- `log.Fatal`: the message is logged; the process then exits with status 1. -/
  | Fatal (msg : String)
  deriving DecidableEq, Repr

/-- A finished run: the calls made and the exit status of the process. -/
structure Outcome where
  trace : List Event
  exit : Nat
  deriving DecidableEq, Repr

/-- Go `log.Fatal(msg)` after the calls `tr`: the message is printed and `os.Exit(1)`
ends the process at once; functions deferred so far are not run. -/
def fatal (tr : List Event) (msg : String) : Outcome :=
  ⟨tr ++ [.Fatal msg], 1⟩

/-- The state of the named file under the calls of a trace, from the state `b`: a
`TempFile` call that created it makes it exist, an `os.Remove` of it makes it not. -/
def fileExistsFrom (name : String) : Bool → List Event → Bool
  | b, [] => b
  | b, .TempFile _ _ (some n) :: tr => fileExistsFrom name (if n = name then true else b) tr
  | b, .Remove n :: tr => fileExistsFrom name (if n = name then false else b) tr
  | b, _ :: tr => fileExistsFrom name b tr

/-- Does the named file exist when the process terminates after the calls of the trace
(it did not exist before the run). -/
def fileExists (name : String) (tr : List Event) : Bool :=
  fileExistsFrom name false tr

/-! ## `main.go` -/

/-- The command line after `flag.Parse()`: the values of the flag variables of
`main.go` and the positional arguments `flag.Args()`. -/
structure Flags where
  flagFunc : String
  flagO : String
  flagRace : Bool
  flagTags : String
  flagV : Bool
  flagWork : Bool
  flagX : Bool
  args : List String
  deriving DecidableEq, Repr

/-- Lines 34-37 of `main.go`: the value `tags`. -/
def tags (flagTags : String) : String :=
  if flagTags != "" then "gofuzz,gofuzz_libfuzzer,libfuzzer" ++ ("," ++ flagTags)
  else "gofuzz,gofuzz_libfuzzer,libfuzzer"

/-- Lines 46-48 of `main.go`: the packages whose instrumentation is suppressed. -/
def suppress : List String := ["syscall"]

/-- Lines 39-64 of `main.go`: the slice `buildFlags` once all the appends are done. -/
def buildFlags (fl : Flags) : List String :=
  let b := ["-buildmode", "c-archive", "-gcflags", "all=-d=libfuzzer", "-tags", tags fl.flagTags,
    "-trimpath"]
  let b := suppress.foldl (fun b pkg => b ++ ["-gcflags", pkg ++ "=-d=libfuzzer=0"]) b
  let b := if fl.flagRace then b ++ ["-race"] else b
  let b := if fl.flagV then b ++ ["-v"] else b
  let b := if fl.flagWork then b ++ ["-work"] else b
  let b := if fl.flagX then b ++ ["-x"] else b
  b

/-- Lines 131-157 of `main.go`: the text that executing `mainTmpl` on
`Data{PkgPath, Func}` writes.  The action `printf "%q" .PkgPath` prints
`strconv.Quote(PkgPath)` and the action `.Func` prints the string itself; the text
between the actions is copied. -/
def mainTmpl (T : Tables) (PkgPath Func : String) : String :=
  "\n// Code generated by go114-fuzz-build; DO NOT EDIT.\n\n// +build ignore\n\npackage main\n\nimport (\n\t\x22unsafe\x22\n\n\ttarget "
  ++ strconv.Quote T PkgPath
  ++ "\n)\n\n// #include <stdint.h>\nimport \x22C\x22\n\n//export LPBMutatorTestOneInput\nfunc LPBMutatorTestOneInput(data *C.char, size C.size_t) C.int \x7b\n\t// TODO(mdempsky): Use unsafe.Slice once golang.org/issue/19367 is accepted.\n\ts := (*[1<<30]byte)(unsafe.Pointer(data))[:size:size]\n\ttarget."
  ++ Func
  ++ "(s)\n\treturn 0\n\x7d\n\nfunc main() \x7b\n\x7d\n"

/-- Lines 88-91 of `main.go`: the import path given to the template. -/
def importPath (PkgPath path : String) : String :=
  if strings.HasPrefix PkgPath "_/" then path else PkgPath

/-- Lines 114-117 of `main.go`: the value `out`. -/
def out (flagO Name : String) : String :=
  if flagO == "" then Name ++ "-fuzz.a" else flagO

/-- Lines 119-121 of `main.go`: the slice `args` given to `exec.Command("go", args...)`. -/
def args (fl : Flags) (Name mainFile : String) : List String :=
  ["build", "-o", out fl.flagO Name] ++ buildFlags fl ++ [mainFile]

/-- Lines 86-128 of `main.go`: the run from `pkg := pkgs[0]` on, after the calls `tr`.
The `defer os.Remove(mainFile.Name())` of line 97 runs when `main` returns, which is
the last line only: every `log.Fatal` exits the process without running it. -/
def mainFrom (T : Tables) (W : World) (fl : Flags) (path : String) (pkg : Package)
    (tr : List Event) : Outcome :=
  match W.TempFile "." "main.*.go" with
  | .error err =>
    fatal (tr ++ [.TempFile "." "main.*.go" none]) ("failed to create temporary file:" ++ err)
  | .ok mainFile =>
    let tr := tr ++ [.TempFile "." "main.*.go" (some mainFile)]
    let text := mainTmpl T (importPath pkg.PkgPath path) fl.flagFunc
    let tr := tr ++ [.Execute mainFile text]
    match W.Execute mainFile text with
    | some err => fatal tr ("failed to execute template:" ++ err)
    | none =>
      let tr := tr ++ [.Close mainFile]
      match W.Close mainFile with
      | some err => fatal tr err
      | none =>
        let tr := tr ++ [.Command "go" (args fl pkg.Name mainFile)]
        match W.Run "go" (args fl pkg.Name mainFile) with
        | some err => fatal tr ("failed to build packages:" ++ err)
        | none => ⟨tr ++ [.Remove mainFile], 0⟩

/-- Lines 27-85 of `main.go`, continued by `mainFrom`: the run of `main` on a parsed
command line. -/
def main (T : Tables) (W : World) (fl : Flags) : Outcome :=
  if !token.IsIdentifier T fl.flagFunc || !token.IsExported T fl.flagFunc then
    fatal [] "-func must be an exported identifier"
  else if h : fl.args.length ≠ 1 then
    fatal [] "must specify exactly one package path"
  else
    let path := fl.args.get ⟨0, by omega⟩
    if strings.Contains path "..." then
      fatal [] "package path must not contain ... wildcards"
    else
      let tr := [Event.Load (buildFlags fl) ("pattern=" ++ path)]
      match W.Load (buildFlags fl) ("pattern=" ++ path) with
      | .error err => fatal tr ("failed to load packages:" ++ err)
      | .ok pkgs =>
        let tr := tr ++ [.PrintErrors pkgs]
        if W.PrintErrors pkgs != 0 then ⟨tr, 1⟩
        else if h : pkgs.length ≠ 1 then
          fatal tr "package path matched multiple packages"
        else
          mainFrom T W fl path (pkgs.get ⟨0, by omega⟩) tr

/-! ## What is observed of a run -/

/-- Is the call a package query issued to the toolchain. -/
def Event.isLoad : Event → Bool
  | .Load _ _ => true
  | _ => false

/-- Is the call a creation of the temporary file (attempted or done). -/
def Event.isTempFile : Event → Bool
  | .TempFile _ _ _ => true
  | _ => false

/-- Is the call the start of a subprocess. -/
def Event.isCommand : Event → Bool
  | .Command _ _ => true
  | _ => false

/-- A call that belongs to the stages before the temporary file: the package query, the
printing of its errors, the fatal log line. -/
def Event.early : Event → Bool
  | .Load _ _ => true
  | .PrintErrors _ => true
  | .Fatal _ => true
  | _ => false

/-- The message of the `log.Fatal` that ended the run, if one did. -/
def Outcome.fatalMsg (o : Outcome) : Option String :=
  match o.trace.getLast? with
  | some (.Fatal msg) => some msg
  | _ => none

/-- The order of the build flags as the specification lists them: build mode, the global
instrumentation flag together with its suppression for each package of the suppression
list, the tags, path trimming, the optional flags. -/
def specFlagOrder (fl : Flags) : List String :=
  ["-buildmode", "c-archive"]
  ++ (["-gcflags", "all=-d=libfuzzer"]
      ++ suppress.flatMap (fun pkg => ["-gcflags", pkg ++ "=-d=libfuzzer=0"]))
  ++ ["-tags", tags fl.flagTags]
  ++ ["-trimpath"]
  ++ (if fl.flagRace then ["-race"] else []) ++ (if fl.flagV then ["-v"] else [])
  ++ (if fl.flagWork then ["-work"] else []) ++ (if fl.flagX then ["-x"] else [])

/-- The lines of a text: the pieces between line feeds. -/
def splitLines : List Char → List (List Char)
  | [] => [[]]
  | c :: cs =>
    if c = '\n' then [] :: splitLines cs
    else (c :: (splitLines cs).headD []) :: (splitLines cs).tail

/-- The number of foreign-export annotations of a text: the lines that start with
`//export `. -/
def exportAnnotations (text : String) : Nat :=
  (splitLines text.data).countP (fun l => "//export ".data.isPrefixOf l)

/-- The number of imports of the path `p` in a harness text: the lines whose string
literal is the quoted `p`, that is the lines that from their first double quote on are
`strconv.Quote(p)`.  (In the skeleton the lines that hold a string literal are the
lines of its imports.) -/
def importsOf (T : Tables) (p text : String) : Nat :=
  (splitLines text.data).countP
    (fun l => l.dropWhile (fun c => c != '\x22') == (strconv.Quote T p).data)

/-- A line without its leading blanks and tabs. -/
def trimLeft (l : List Char) : List Char :=
  l.dropWhile (fun c => c == ' ' || c == '\t')

/-- What a line imports under the alias `target`, if it is such an import: the line is,
after leading white space and an optional keyword `import`, the word `target`, white
space, and then the text returned (the path as a string literal). -/
def targetImportOfLine (l : List Char) : Option (List Char) :=
  let l1 := trimLeft l
  let l2 := if "import ".data.isPrefixOf l1 || "import\t".data.isPrefixOf l1
    then trimLeft (l1.drop 6) else l1
  if "target ".data.isPrefixOf l2 || "target\t".data.isPrefixOf l2
    then some (trimLeft (l2.drop 6)) else none

/-- The imports under the alias `target` of a text, in the order of its lines: for each
line that is such an import, what it imports. -/
def targetImports (text : String) : List (List Char) :=
  (splitLines text.data).filterMap targetImportOfLine

/-- A text made of printable ASCII other than the double quote and the backslash. -/
def isPlain (s : String) : Bool :=
  s.data.all (fun c => decide (0x20 ≤ c.toNat ∧ c.toNat ≤ 0x7E) && c != '\x22' && c != '\\')

/-! ## Concrete inputs -/

/-- Range tables with nothing in them: every code point from U+0080 on is of category
`other`, none above U+00FF is printable. -/
def asciiTables : Tables := ⟨fun _ => .other, fun _ => false⟩

/-- The command line `-func Fuzz example.com/sample`, every other flag at its default. -/
def sampleFlags : Flags :=
  ⟨"Fuzz", "", false, "", false, false, false, ["example.com/sample"]⟩

/-- A world in which every collaborator succeeds: the query matches the one package
`sample`, the temporary file is `main.123456789.go`, the build exits with status 0. -/
def sampleWorld : World where
  Load := fun _ _ => .ok [⟨"example.com/sample", "sample"⟩]
  PrintErrors := fun _ => 0
  TempFile := fun _ _ => .ok "main.123456789.go"
  Execute := fun _ _ => none
  Close := fun _ => none
  Run := fun _ _ => none

/-- The world of `sampleWorld` except that `go build` exits with a non-zero status. -/
def buildFailsWorld : World :=
  { sampleWorld with Run := fun _ _ => some "exit status 2" }

/-- The world of `sampleWorld` except that the query matches the packages given. -/
def matchesWorld (pkgs : List Package) : World :=
  { sampleWorld with Load := fun _ _ => .ok pkgs }

/-- The world of `matchesWorld` except that the query reports one package error, which
`packages.PrintErrors` prints and counts. -/
def packageErrorWorld (pkgs : List Package) : World :=
  { matchesWorld pkgs with PrintErrors := fun _ => 1 }

/-- The command line `-func Fuzz ./sample`. -/
def localFlags : Flags :=
  ⟨"Fuzz", "", false, "", false, false, false, ["./sample"]⟩

/-- The world of `sampleWorld` except that the query reports the one package under the
synthetic path `_/home/user/sample`. -/
def localWorld : World :=
  matchesWorld [⟨"_/home/user/sample", "sample"⟩]

/-- The world of `sampleWorld` except that executing the template fails. -/
def executeFailsWorld : World :=
  { sampleWorld with Execute := fun _ _ => some "write main.123456789.go: no space left on device" }

/-- The world of `sampleWorld` except that closing the temporary file fails. -/
def closeFailsWorld : World :=
  { sampleWorld with Close := fun _ => some "close main.123456789.go: input/output error" }

/-! ## How a run of `main` unfolds -/

theorem main_invalid (T : Tables) (W : World) (fl : Flags)
    (h : token.IsIdentifier T fl.flagFunc = false ∨ token.IsExported T fl.flagFunc = false) :
    main T W fl = ⟨[.Fatal "-func must be an exported identifier"], 1⟩ := by
  unfold main
  rcases h with h | h <;> simp [h, fatal]

theorem main_wildcard (T : Tables) (W : World) (fl : Flags) (path : String)
    (hI : token.IsIdentifier T fl.flagFunc = true) (hE : token.IsExported T fl.flagFunc = true)
    (hargs : fl.args = [path]) (hc : strings.Contains path "..." = true) :
    main T W fl = ⟨[.Fatal "package path must not contain ... wildcards"], 1⟩ := by
  obtain ⟨f, o, r, t, v, w, x, a⟩ := fl
  simp only at hargs hI hE
  subst hargs
  simp [main, hI, hE, hc, fatal]

theorem main_load_error (T : Tables) (W : World) (fl : Flags) (path err : String)
    (hI : token.IsIdentifier T fl.flagFunc = true) (hE : token.IsExported T fl.flagFunc = true)
    (hargs : fl.args = [path]) (hc : strings.Contains path "..." = false)
    (hL : W.Load (buildFlags fl) ("pattern=" ++ path) = .error err) :
    main T W fl = ⟨[.Load (buildFlags fl) ("pattern=" ++ path),
      .Fatal ("failed to load packages:" ++ err)], 1⟩ := by
  obtain ⟨f, o, r, t, v, w, x, a⟩ := fl
  simp only at hargs hI hE
  subst hargs
  simp [main, hI, hE, hc, hL, fatal]

theorem main_print_errors (T : Tables) (W : World) (fl : Flags) (path : String)
    (pkgs : List Package)
    (hI : token.IsIdentifier T fl.flagFunc = true) (hE : token.IsExported T fl.flagFunc = true)
    (hargs : fl.args = [path]) (hc : strings.Contains path "..." = false)
    (hL : W.Load (buildFlags fl) ("pattern=" ++ path) = .ok pkgs)
    (hP : W.PrintErrors pkgs ≠ 0) :
    main T W fl = ⟨[.Load (buildFlags fl) ("pattern=" ++ path), .PrintErrors pkgs], 1⟩ := by
  obtain ⟨f, o, r, t, v, w, x, a⟩ := fl
  simp only at hargs hI hE
  subst hargs
  simp [main, hI, hE, hc, hL, hP, fatal]

theorem main_not_one (T : Tables) (W : World) (fl : Flags) (path : String)
    (pkgs : List Package)
    (hI : token.IsIdentifier T fl.flagFunc = true) (hE : token.IsExported T fl.flagFunc = true)
    (hargs : fl.args = [path]) (hc : strings.Contains path "..." = false)
    (hL : W.Load (buildFlags fl) ("pattern=" ++ path) = .ok pkgs)
    (hP : W.PrintErrors pkgs = 0) (hn : pkgs.length ≠ 1) :
    main T W fl = ⟨[.Load (buildFlags fl) ("pattern=" ++ path), .PrintErrors pkgs,
      .Fatal "package path matched multiple packages"], 1⟩ := by
  obtain ⟨f, o, r, t, v, w, x, a⟩ := fl
  simp only at hargs hI hE
  subst hargs
  simp [main, hI, hE, hc, hL, hP, hn, fatal]

theorem main_one (T : Tables) (W : World) (fl : Flags) (path : String) (pkg : Package)
    (hI : token.IsIdentifier T fl.flagFunc = true) (hE : token.IsExported T fl.flagFunc = true)
    (hargs : fl.args = [path]) (hc : strings.Contains path "..." = false)
    (hL : W.Load (buildFlags fl) ("pattern=" ++ path) = .ok [pkg])
    (hP : W.PrintErrors [pkg] = 0) :
    main T W fl = mainFrom T W fl path pkg
      [.Load (buildFlags fl) ("pattern=" ++ path), .PrintErrors [pkg]] := by
  obtain ⟨f, o, r, t, v, w, x, a⟩ := fl
  simp only at hargs hI hE
  subst hargs
  simp [main, hI, hE, hc, hL, hP]

theorem main_args (T : Tables) (W : World) (fl : Flags)
    (hI : token.IsIdentifier T fl.flagFunc = true) (hE : token.IsExported T fl.flagFunc = true)
    (hargs : fl.args.length ≠ 1) :
    main T W fl = ⟨[.Fatal "must specify exactly one package path"], 1⟩ := by
  simp [main, hI, hE, hargs, fatal]

/-- Every run of `main` either reaches line 86 with the one package the query matched, or
ends with status 1 having made early calls only. -/
theorem main_reaches (T : Tables) (W : World) (fl : Flags) :
    (∃ path pkg, fl.args = [path] ∧ token.IsIdentifier T fl.flagFunc = true ∧
        token.IsExported T fl.flagFunc = true ∧ strings.Contains path "..." = false ∧
        W.Load (buildFlags fl) ("pattern=" ++ path) = .ok [pkg] ∧ W.PrintErrors [pkg] = 0 ∧
        main T W fl = mainFrom T W fl path pkg
          [.Load (buildFlags fl) ("pattern=" ++ path), .PrintErrors [pkg]]) ∨
      ((main T W fl).exit = 1 ∧ ∀ e ∈ (main T W fl).trace, e.early = true) := by
  cases hI : token.IsIdentifier T fl.flagFunc with
  | false => right; rw [main_invalid T W fl (Or.inl hI)]; simp [Event.early]
  | true =>
  cases hE : token.IsExported T fl.flagFunc with
  | false => right; rw [main_invalid T W fl (Or.inr hE)]; simp [Event.early]
  | true =>
  by_cases hlen : fl.args.length = 1
  · obtain ⟨path, hargs⟩ := List.length_eq_one.mp hlen
    cases hc : strings.Contains path "..." with
    | true => right; rw [main_wildcard T W fl path hI hE hargs hc]; simp [Event.early]
    | false =>
    cases hL : W.Load (buildFlags fl) ("pattern=" ++ path) with
    | error err => right; rw [main_load_error T W fl path err hI hE hargs hc hL]; simp [Event.early]
    | ok pkgs =>
    by_cases hP : W.PrintErrors pkgs = 0
    · by_cases hn : pkgs.length = 1
      · obtain ⟨pkg, rfl⟩ := List.length_eq_one.mp hn
        left
        exact ⟨path, pkg, hargs, rfl, rfl, hc, hL, hP, main_one T W fl path pkg hI hE hargs hc hL hP⟩
      · right; rw [main_not_one T W fl path pkgs hI hE hargs hc hL hP hn]; simp [Event.early]
    · right; rw [main_print_errors T W fl path pkgs hI hE hargs hc hL hP]; simp [Event.early]
  · right; rw [main_args T W fl hI hE hlen]; simp [Event.early]

/-- The five ways the run goes on from line 86, each with the calls it makes. -/
theorem mainFrom_cases (T : Tables) (W : World) (fl : Flags) (path : String) (pkg : Package)
    (tr : List Event) :
    (∃ err, W.TempFile "." "main.*.go" = .error err ∧
      mainFrom T W fl path pkg tr = ⟨tr ++ [.TempFile "." "main.*.go" none,
        .Fatal ("failed to create temporary file:" ++ err)], 1⟩) ∨
    (∃ mainFile, W.TempFile "." "main.*.go" = .ok mainFile ∧
      ((∃ err, mainFrom T W fl path pkg tr = ⟨tr ++ [.TempFile "." "main.*.go" (some mainFile),
          .Execute mainFile (mainTmpl T (importPath pkg.PkgPath path) fl.flagFunc),
          .Fatal ("failed to execute template:" ++ err)], 1⟩) ∨
       (∃ err, mainFrom T W fl path pkg tr = ⟨tr ++ [.TempFile "." "main.*.go" (some mainFile),
          .Execute mainFile (mainTmpl T (importPath pkg.PkgPath path) fl.flagFunc),
          .Close mainFile, .Fatal err], 1⟩) ∨
       (∃ err, mainFrom T W fl path pkg tr = ⟨tr ++ [.TempFile "." "main.*.go" (some mainFile),
          .Execute mainFile (mainTmpl T (importPath pkg.PkgPath path) fl.flagFunc),
          .Close mainFile, .Command "go" (args fl pkg.Name mainFile),
          .Fatal ("failed to build packages:" ++ err)], 1⟩) ∨
       (mainFrom T W fl path pkg tr = ⟨tr ++ [.TempFile "." "main.*.go" (some mainFile),
          .Execute mainFile (mainTmpl T (importPath pkg.PkgPath path) fl.flagFunc),
          .Close mainFile, .Command "go" (args fl pkg.Name mainFile),
          .Remove mainFile], 0⟩))) := by
  cases hT : W.TempFile "." "main.*.go" with
  | error err => left; exact ⟨err, rfl, by simp [mainFrom, hT, fatal]⟩
  | ok mainFile =>
    right
    refine ⟨mainFile, rfl, ?_⟩
    cases hX : W.Execute mainFile (mainTmpl T (importPath pkg.PkgPath path) fl.flagFunc) with
    | some err => left; exact ⟨err, by simp [mainFrom, hT, hX, fatal]⟩
    | none =>
      right
      cases hC : W.Close mainFile with
      | some err => left; exact ⟨err, by simp [mainFrom, hT, hX, hC, fatal]⟩
      | none =>
        right
        cases hR : W.Run "go" (args fl pkg.Name mainFile) with
        | some err => left; exact ⟨err, by simp [mainFrom, hT, hX, hC, hR, fatal]⟩
        | none => right; simp [mainFrom, hT, hX, hC, hR]

/-- The text that a run writes into the temporary file is the template executed on the
normalised import path and the entry-function name. -/
theorem mainFrom_execute (T : Tables) (W : World) (fl : Flags) (path : String) (pkg : Package)
    (tr : List Event) (file text : String)
    (h : Event.Execute file text ∈ (mainFrom T W fl path pkg tr).trace) :
    Event.Execute file text ∈ tr ∨
      (W.TempFile "." "main.*.go" = .ok file ∧
        text = mainTmpl T (importPath pkg.PkgPath path) fl.flagFunc) := by
  rcases mainFrom_cases T W fl path pkg tr with
    ⟨err, _, e⟩ | ⟨mainFile, hT, ⟨err, e⟩ | ⟨err, e⟩ | ⟨err, e⟩ | e⟩
  · rw [e] at h
    simp at h
    exact Or.inl h
  all_goals
    rw [e] at h
    simp at h
    rcases h with h | ⟨h1, h2⟩
    · exact Or.inl h
    · exact Or.inr ⟨by rw [hT, h1], h2⟩

/-- The one subprocess a run starts is `go` with the arguments `args`. -/
theorem mainFrom_command (T : Tables) (W : World) (fl : Flags) (path : String) (pkg : Package)
    (tr : List Event) (name : String) (as : List String)
    (h : Event.Command name as ∈ (mainFrom T W fl path pkg tr).trace) :
    Event.Command name as ∈ tr ∨
      ∃ mainFile, W.TempFile "." "main.*.go" = .ok mainFile ∧ name = "go" ∧
        as = args fl pkg.Name mainFile := by
  rcases mainFrom_cases T W fl path pkg tr with
    ⟨err, _, e⟩ | ⟨mainFile, hT, ⟨err, e⟩ | ⟨err, e⟩ | ⟨err, e⟩ | e⟩
  · rw [e] at h
    simp at h
    exact Or.inl h
  · rw [e] at h
    simp at h
    exact Or.inl h
  · rw [e] at h
    simp at h
    exact Or.inl h
  all_goals
    rw [e] at h
    simp at h
    rcases h with h | ⟨h1, h2⟩
    · exact Or.inl h
    · exact Or.inr ⟨mainFile, hT, h1, h2⟩

/-! ## Flags and paths -/

theorem buildFlags_eq (fl : Flags) :
    buildFlags fl = ["-buildmode", "c-archive", "-gcflags", "all=-d=libfuzzer", "-tags",
      tags fl.flagTags, "-trimpath", "-gcflags", "syscall=-d=libfuzzer=0"]
      ++ (if fl.flagRace then ["-race"] else []) ++ (if fl.flagV then ["-v"] else [])
      ++ (if fl.flagWork then ["-work"] else []) ++ (if fl.flagX then ["-x"] else []) := by
  have e : "syscall" ++ "=-d=libfuzzer=0" = "syscall=-d=libfuzzer=0" := by decide
  unfold buildFlags suppress
  cases fl.flagRace <;> cases fl.flagV <;> cases fl.flagWork <;> cases fl.flagX <;> simp [e]

theorem strings.HasPrefix_iff (s pre : String) :
    strings.HasPrefix s pre = true ↔ ∃ rest : String, s = pre ++ rest := by
  unfold strings.HasPrefix
  rw [List.isPrefixOf_iff_prefix]
  constructor
  · rintro ⟨t, ht⟩
    exact ⟨⟨t⟩, String.ext (by simp [ht])⟩
  · rintro ⟨rest, rfl⟩
    exact ⟨rest.data, by simp⟩

theorem tags_ne (t : String) : tags t ≠ "-tags" := by
  intro h
  have := congrArg String.data h
  unfold tags at this
  split at this <;> simp at this

/-- C5: the value after `-tags` is the three fixed tags alone when the user gives no tags,
and the three fixed tags, a comma and the user's tags otherwise; `-tags` occurs once in the
build flags, at a fixed place, with that value right after it. -/
theorem tags_value (fl : Flags) :
    (fl.flagTags = "" → tags fl.flagTags = "gofuzz,gofuzz_libfuzzer,libfuzzer") ∧
    (fl.flagTags ≠ "" →
      tags fl.flagTags = "gofuzz,gofuzz_libfuzzer,libfuzzer," ++ fl.flagTags) ∧
    (buildFlags fl)[4]? = some "-tags" ∧
    (buildFlags fl)[5]? = some (tags fl.flagTags) ∧
    (buildFlags fl).count "-tags" = 1 := by
  refine ⟨?_, ?_, ?_, ?_, ?_⟩
  · intro h
    simp [tags, h]
  · intro h
    have e : "gofuzz,gofuzz_libfuzzer,libfuzzer" ++ "," = "gofuzz,gofuzz_libfuzzer,libfuzzer," := by
      decide
    simp [tags, h, ← String.append_assoc, e]
  · rw [buildFlags_eq]; simp
  · rw [buildFlags_eq]; simp
  · rw [buildFlags_eq]
    have := tags_ne fl.flagTags
    cases fl.flagRace <;> cases fl.flagV <;> cases fl.flagWork <;> cases fl.flagX <;>
      simp [List.count_cons, this]


/-- The subprocess a run of `main` starts, if it starts one: the query matched one
package, the temporary file was created, and the program is `go` with `args`. -/
theorem main_command (T : Tables) (W : World) (fl : Flags) (name : String) (as : List String)
    (h : Event.Command name as ∈ (main T W fl).trace) :
    ∃ path pkg mainFile, fl.args = [path] ∧
      W.Load (buildFlags fl) ("pattern=" ++ path) = .ok [pkg] ∧
      W.TempFile "." "main.*.go" = .ok mainFile ∧ name = "go" ∧
      as = args fl pkg.Name mainFile := by
  rcases main_reaches T W fl with ⟨path, pkg, hargs, _, _, _, hL, _, e⟩ | ⟨_, hall⟩
  · rw [e] at h
    rcases mainFrom_command T W fl path pkg _ name as h with h | ⟨mainFile, hT, hn, ha⟩
    · simp at h
    · exact ⟨path, pkg, mainFile, hargs, hL, hT, hn, ha⟩
  · have := hall _ h
    simp [Event.early] at this

/-- C6 (as the code has it): the arguments of the compiler invocation are `build`,
`-o` and the output path, then the build mode, the global instrumentation flag, the
tags, `-trimpath`, then the suppression of the instrumentation for `syscall`, then the
optional flags that were requested in the order `-race`, `-v`, `-work`, `-x`, and last
the path of the generated harness. -/
theorem command_flag_order (T : Tables) (W : World) (fl : Flags) (name : String)
    (as : List String) (h : Event.Command name as ∈ (main T W fl).trace) :
    ∃ o mainFile, W.TempFile "." "main.*.go" = .ok mainFile ∧ name = "go" ∧
      as = ["build", "-o", o, "-buildmode", "c-archive", "-gcflags", "all=-d=libfuzzer",
          "-tags", tags fl.flagTags, "-trimpath", "-gcflags", "syscall=-d=libfuzzer=0"]
        ++ (if fl.flagRace then ["-race"] else []) ++ (if fl.flagV then ["-v"] else [])
        ++ (if fl.flagWork then ["-work"] else []) ++ (if fl.flagX then ["-x"] else [])
        ++ [mainFile] := by
  obtain ⟨path, pkg, mainFile, _, _, hT, hn, ha⟩ := main_command T W fl name as h
  refine ⟨out fl.flagO pkg.Name, mainFile, hT, hn, ?_⟩
  rw [ha, args, buildFlags_eq]
  simp

theorem command_flag_order_witness :
    Event.Command "go" ["build", "-o", "sample-fuzz.a", "-buildmode", "c-archive", "-gcflags",
        "all=-d=libfuzzer", "-tags", "gofuzz,gofuzz_libfuzzer,libfuzzer,netgo", "-trimpath",
        "-gcflags", "syscall=-d=libfuzzer=0", "-race", "-x", "main.123456789.go"]
      ∈ (main asciiTables sampleWorld
          { sampleFlags with flagTags := "netgo", flagRace := true, flagX := true }).trace ∧
    ∃ o mainFile, sampleWorld.TempFile "." "main.*.go" = .ok mainFile ∧ "go" = "go" ∧
      ["build", "-o", "sample-fuzz.a", "-buildmode", "c-archive", "-gcflags",
        "all=-d=libfuzzer", "-tags", "gofuzz,gofuzz_libfuzzer,libfuzzer,netgo", "-trimpath",
        "-gcflags", "syscall=-d=libfuzzer=0", "-race", "-x", "main.123456789.go"]
      = ["build", "-o", o, "-buildmode", "c-archive", "-gcflags", "all=-d=libfuzzer",
          "-tags", tags "netgo", "-trimpath", "-gcflags", "syscall=-d=libfuzzer=0"]
        ++ (if true then ["-race"] else []) ++ (if false then ["-v"] else [])
        ++ (if false then ["-work"] else []) ++ (if true then ["-x"] else [])
        ++ [mainFile] :=
  ⟨by decide, command_flag_order asciiTables sampleWorld
    { sampleFlags with flagTags := "netgo", flagRace := true, flagX := true } _ _ (by decide)⟩

/-- C6 (as the claim has it) fails: on the default command line the compiler is invoked
with the suppression flag for `syscall` after `-tags` and after `-trimpath`, not next to
the global instrumentation flag, so the flags are not in the order the specification
lists. -/
theorem flag_order_counterexample :
    Event.Command "go" ["build", "-o", "sample-fuzz.a", "-buildmode", "c-archive", "-gcflags",
        "all=-d=libfuzzer", "-tags", "gofuzz,gofuzz_libfuzzer,libfuzzer", "-trimpath",
        "-gcflags", "syscall=-d=libfuzzer=0", "main.123456789.go"]
      ∈ (main asciiTables sampleWorld sampleFlags).trace ∧
    ["build", "-o", "sample-fuzz.a", "-buildmode", "c-archive", "-gcflags",
        "all=-d=libfuzzer", "-tags", "gofuzz,gofuzz_libfuzzer,libfuzzer", "-trimpath",
        "-gcflags", "syscall=-d=libfuzzer=0", "main.123456789.go"]
      ≠ ["build", "-o", "sample-fuzz.a"] ++ specFlagOrder sampleFlags ++ ["main.123456789.go"] ∧
    (buildFlags sampleFlags).indexOf "-tags" = 4 ∧
    (buildFlags sampleFlags).indexOf "-trimpath" = 6 ∧
    (buildFlags sampleFlags).indexOf "syscall=-d=libfuzzer=0" = 8 ∧
    (specFlagOrder sampleFlags).indexOf "syscall=-d=libfuzzer=0" = 5 ∧
    (specFlagOrder sampleFlags).indexOf "-tags" = 6 := by
  decide

/-- C7: the path the compiler gets after `-o` is the package name followed by `-fuzz.a`
when the user gave no output path, and the user's output path unchanged otherwise. -/
theorem output_path (T : Tables) (W : World) (fl : Flags) (name : String)
    (as : List String) (h : Event.Command name as ∈ (main T W fl).trace) :
    ∃ path pkg, fl.args = [path] ∧
      W.Load (buildFlags fl) ("pattern=" ++ path) = .ok [pkg] ∧
      as[0]? = some "build" ∧ as[1]? = some "-o" ∧
      (fl.flagO = "" → as[2]? = some (pkg.Name ++ "-fuzz.a")) ∧
      (fl.flagO ≠ "" → as[2]? = some fl.flagO) := by
  obtain ⟨path, pkg, mainFile, hargs, hL, _, _, ha⟩ := main_command T W fl name as h
  refine ⟨path, pkg, hargs, hL, ?_, ?_, ?_, ?_⟩
  · simp [ha, args]
  · simp [ha, args]
  · intro ho
    simp [ha, args, out, ho]
  · intro ho
    simp [ha, args, out, ho]

theorem output_path_witness :
    Event.Command "go" ["build", "-o", "sample-fuzz.a", "-buildmode", "c-archive", "-gcflags",
        "all=-d=libfuzzer", "-tags", "gofuzz,gofuzz_libfuzzer,libfuzzer", "-trimpath",
        "-gcflags", "syscall=-d=libfuzzer=0", "main.123456789.go"]
      ∈ (main asciiTables sampleWorld sampleFlags).trace ∧
    ∃ path pkg, sampleFlags.args = [path] ∧
      sampleWorld.Load (buildFlags sampleFlags) ("pattern=" ++ path) = .ok [pkg] ∧
      ["build", "-o", "sample-fuzz.a", "-buildmode", "c-archive", "-gcflags",
        "all=-d=libfuzzer", "-tags", "gofuzz,gofuzz_libfuzzer,libfuzzer", "-trimpath",
        "-gcflags", "syscall=-d=libfuzzer=0", "main.123456789.go"][0]? = some "build" ∧
      ["build", "-o", "sample-fuzz.a", "-buildmode", "c-archive", "-gcflags",
        "all=-d=libfuzzer", "-tags", "gofuzz,gofuzz_libfuzzer,libfuzzer", "-trimpath",
        "-gcflags", "syscall=-d=libfuzzer=0", "main.123456789.go"][1]? = some "-o" ∧
      (sampleFlags.flagO = "" →
        ["build", "-o", "sample-fuzz.a", "-buildmode", "c-archive", "-gcflags",
          "all=-d=libfuzzer", "-tags", "gofuzz,gofuzz_libfuzzer,libfuzzer", "-trimpath",
          "-gcflags", "syscall=-d=libfuzzer=0", "main.123456789.go"][2]?
          = some (pkg.Name ++ "-fuzz.a")) ∧
      (sampleFlags.flagO ≠ "" →
        ["build", "-o", "sample-fuzz.a", "-buildmode", "c-archive", "-gcflags",
          "all=-d=libfuzzer", "-tags", "gofuzz,gofuzz_libfuzzer,libfuzzer", "-trimpath",
          "-gcflags", "syscall=-d=libfuzzer=0", "main.123456789.go"][2]?
          = some sampleFlags.flagO) :=
  ⟨by decide, output_path asciiTables sampleWorld sampleFlags "go" _ (by decide)⟩

theorem strings.containsFrom_of_infix (sub a b : List Char) :
    strings.containsFrom sub (a ++ (sub ++ b)) = true := by
  induction a with
  | nil =>
    cases h : sub ++ b with
    | nil =>
      have : sub = [] := (List.append_eq_nil.mp h).1
      simp [strings.containsFrom, this]
    | cons c cs =>
      have : sub.isPrefixOf (c :: cs) = true := by
        rw [← h, List.isPrefixOf_iff_prefix]
        exact List.prefix_append sub b
      simp [strings.containsFrom, this]
  | cons c cs ih =>
    simp [strings.containsFrom, ih]

/-- C10: a package path that contains `...`, given as the one positional argument with a
valid entry-function name, ends the run with the fatal error of line 71 as the only call:
no package query is issued, no temporary file is created, no compiler is started. -/
theorem wildcard_rejected (T : Tables) (W : World) (fl : Flags) (a b : String)
    (hI : token.IsIdentifier T fl.flagFunc = true) (hE : token.IsExported T fl.flagFunc = true)
    (hargs : fl.args = [a ++ "..." ++ b]) :
    main T W fl = ⟨[.Fatal "package path must not contain ... wildcards"], 1⟩ ∧
    (main T W fl).trace.any Event.isLoad = false ∧
    (main T W fl).trace.any Event.isTempFile = false ∧
    (main T W fl).trace.any Event.isCommand = false := by
  have hc : strings.Contains (a ++ "..." ++ b) "..." = true := by
    unfold strings.Contains
    have := strings.containsFrom_of_infix "...".data a.data b.data
    simpa [String.data_append, List.append_assoc] using this
  have e := main_wildcard T W fl _ hI hE hargs hc
  rw [e]
  simp [Event.isLoad, Event.isTempFile, Event.isCommand]

theorem wildcard_rejected_witness :
    token.IsIdentifier asciiTables "Fuzz" = true ∧ token.IsExported asciiTables "Fuzz" = true ∧
    main asciiTables sampleWorld
      ⟨"Fuzz", "", false, "", false, false, false, ["./" ++ "..." ++ ""]⟩
      = ⟨[.Fatal "package path must not contain ... wildcards"], 1⟩ :=
  ⟨by decide, by decide,
    (wildcard_rejected asciiTables sampleWorld
      ⟨"Fuzz", "", false, "", false, false, false, ["./" ++ "..." ++ ""]⟩ "./" ""
      (by decide) (by decide) rfl).1⟩


/-! ## The checks before the build -/

/-- When the entry-function name passes the check, the first call of the run is the
package query or one of the two fatal errors about the positional argument. -/
theorem main_valid_head (T : Tables) (W : World) (fl : Flags)
    (hI : token.IsIdentifier T fl.flagFunc = true) (hE : token.IsExported T fl.flagFunc = true) :
    (main T W fl).trace.head? = some (.Fatal "must specify exactly one package path") ∨
    (main T W fl).trace.head? = some (.Fatal "package path must not contain ... wildcards") ∨
    ∃ path, (main T W fl).trace.head? = some (.Load (buildFlags fl) ("pattern=" ++ path)) := by
  by_cases hlen : fl.args.length = 1
  · obtain ⟨path, hargs⟩ := List.length_eq_one.mp hlen
    cases hc : strings.Contains path "..." with
    | true => right; left; rw [main_wildcard T W fl path hI hE hargs hc]; rfl
    | false =>
    right; right
    refine ⟨path, ?_⟩
    cases hL : W.Load (buildFlags fl) ("pattern=" ++ path) with
    | error err => rw [main_load_error T W fl path err hI hE hargs hc hL]; rfl
    | ok pkgs =>
    by_cases hP : W.PrintErrors pkgs = 0
    · by_cases hn : pkgs.length = 1
      · obtain ⟨pkg, rfl⟩ := List.length_eq_one.mp hn
        rw [main_one T W fl path pkg hI hE hargs hc hL hP]
        rcases mainFrom_cases T W fl path pkg
            [.Load (buildFlags fl) ("pattern=" ++ path), .PrintErrors [pkg]] with
          ⟨err, _, e⟩ | ⟨mainFile, hT, ⟨err, e⟩ | ⟨err, e⟩ | ⟨err, e⟩ | e⟩ <;>
        · rw [e]; rfl
      · rw [main_not_one T W fl path pkgs hI hE hargs hc hL hP hn]; rfl
    · rw [main_print_errors T W fl path pkgs hI hE hargs hc hL hP]; rfl
  · left; rw [main_args T W fl hI hE hlen]; rfl

theorem IsExported_of_lower (T : Tables) (f : String) (c : Char) (rest : List Char)
    (hf : f.data = c :: rest) (hc : unicode.IsLower T c = true) :
    token.IsExported T f = false := by
  unfold unicode.IsLower at hc
  simp [token.IsExported, utf8.DecodeRuneInString, hf, unicode.IsUpper, of_decide_eq_true hc]

/-- C2: the run fails with the fatal error of line 31 exactly when the entry-function
name is not an identifier or not exported; a name that is an exported identifier passes
the check, and a name that is not an identifier or whose first letter is lower-case ends
the run with that fatal error as its only call: no package query is issued, no temporary
file is created, no subprocess is started. -/
theorem func_check (T : Tables) (W : World) (fl : Flags) :
    (token.IsIdentifier T fl.flagFunc = true → token.IsExported T fl.flagFunc = true →
      (main T W fl).trace.head? ≠ some (.Fatal "-func must be an exported identifier")) ∧
    ((token.IsIdentifier T fl.flagFunc = false ∨
        ∃ c rest, fl.flagFunc.data = c :: rest ∧ unicode.IsLower T c = true) →
      main T W fl = ⟨[.Fatal "-func must be an exported identifier"], 1⟩ ∧
      (main T W fl).trace.any Event.isLoad = false ∧
      (main T W fl).trace.any Event.isTempFile = false ∧
      (main T W fl).trace.any Event.isCommand = false) := by
  constructor
  · intro hI hE
    rcases main_valid_head T W fl hI hE with h | h | ⟨path, h⟩ <;>
    · rw [h]; simp
  · intro h
    have e : main T W fl = ⟨[.Fatal "-func must be an exported identifier"], 1⟩ := by
      rcases h with h | ⟨c, rest, hf, hc⟩
      · exact main_invalid T W fl (Or.inl h)
      · exact main_invalid T W fl (Or.inr (IsExported_of_lower T _ c rest hf hc))
    rw [e]
    simp [Event.isLoad, Event.isTempFile, Event.isCommand]

/-- The entry-function name `Fuzz` passes the check; `fuzz`, `2Fuzz`, `Fu-zz`, the keyword
`func` and the empty name fail it before anything else happens. -/
theorem func_check_examples :
    (main asciiTables sampleWorld sampleFlags).trace.head?
      = some (.Load (buildFlags sampleFlags) "pattern=example.com/sample") ∧
    main asciiTables sampleWorld { sampleFlags with flagFunc := "fuzz" }
      = ⟨[.Fatal "-func must be an exported identifier"], 1⟩ ∧
    main asciiTables sampleWorld { sampleFlags with flagFunc := "2Fuzz" }
      = ⟨[.Fatal "-func must be an exported identifier"], 1⟩ ∧
    main asciiTables sampleWorld { sampleFlags with flagFunc := "Fu-zz" }
      = ⟨[.Fatal "-func must be an exported identifier"], 1⟩ ∧
    main asciiTables sampleWorld { sampleFlags with flagFunc := "func" }
      = ⟨[.Fatal "-func must be an exported identifier"], 1⟩ ∧
    main asciiTables sampleWorld { sampleFlags with flagFunc := "" }
      = ⟨[.Fatal "-func must be an exported identifier"], 1⟩ := by
  decide


/-- C1 fails on the code: when `go build` exits with a non-zero status, when executing the
template fails and when closing the file fails, the run ends through `log.Fatal` with
status 1 and the temporary file it created is still there; only the successful run
removes it. -/
theorem tempfile_left_behind :
    ((main asciiTables buildFailsWorld sampleFlags).exit = 1 ∧
      Event.TempFile "." "main.*.go" (some "main.123456789.go")
        ∈ (main asciiTables buildFailsWorld sampleFlags).trace ∧
      Event.Remove "main.123456789.go" ∉ (main asciiTables buildFailsWorld sampleFlags).trace ∧
      fileExists "main.123456789.go" (main asciiTables buildFailsWorld sampleFlags).trace
        = true) ∧
    ((main asciiTables executeFailsWorld sampleFlags).exit = 1 ∧
      fileExists "main.123456789.go" (main asciiTables executeFailsWorld sampleFlags).trace
        = true) ∧
    ((main asciiTables closeFailsWorld sampleFlags).exit = 1 ∧
      fileExists "main.123456789.go" (main asciiTables closeFailsWorld sampleFlags).trace
        = true) ∧
    ((main asciiTables sampleWorld sampleFlags).exit = 0 ∧
      fileExists "main.123456789.go" (main asciiTables sampleWorld sampleFlags).trace
        = false) := by
  decide

/-- The temporary file a run created is there when the process terminates exactly when
the run ended with status 1. -/
theorem tempfile_exists_iff_failed (T : Tables) (W : World) (fl : Flags) (name : String)
    (h : Event.TempFile "." "main.*.go" (some name) ∈ (main T W fl).trace) :
    fileExists name (main T W fl).trace = true ↔ (main T W fl).exit = 1 := by
  rcases main_reaches T W fl with ⟨path, pkg, hargs, _, _, _, hL, _, e⟩ | ⟨_, hall⟩
  · rw [e] at h ⊢
    rcases mainFrom_cases T W fl path pkg
        [.Load (buildFlags fl) ("pattern=" ++ path), .PrintErrors [pkg]] with
      ⟨err, _, e⟩ | ⟨mainFile, hT, ⟨err, e⟩ | ⟨err, e⟩ | ⟨err, e⟩ | e⟩
    · rw [e] at h
      simp at h
    all_goals
      rw [e] at h ⊢
      simp at h
      subst h
      simp [fileExists, fileExistsFrom]
  · have := hall _ h
    simp [Event.early] at this


/-! ## The generated harness -/

theorem splitLines_ne_nil (a : List Char) : splitLines a ≠ [] := by
  cases a with
  | nil => simp [splitLines]
  | cons c cs => unfold splitLines; split <;> simp

theorem splitLines_append_newline (a b : List Char) :
    splitLines (a ++ '\n' :: b) = splitLines a ++ splitLines b := by
  induction a with
  | nil => simp [splitLines]
  | cons c cs ih =>
    have hne := splitLines_ne_nil cs
    by_cases hc : c = '\n'
    · simp [splitLines, hc, ih]
    · cases hs : splitLines cs with
      | nil => exact absurd hs hne
      | cons l ls => simp [splitLines, hc, ih, hs]

theorem splitLines_of_not_mem (a : List Char) (h : '\n' ∉ a) : splitLines a = [a] := by
  induction a with
  | nil => rfl
  | cons c cs ih =>
    have hc : c ≠ '\n' := fun e => h (by simp [e])
    have hcs : '\n' ∉ cs := fun e => h (by simp [e])
    simp [splitLines, hc, ih hcs]


/-- The lines of the harness text, for a quoted path and a function name without line
feed: the lines of the skeleton, with the import of the target and the call of the entry
function in their places. -/
theorem mainTmpl_lines (T : Tables) (p f : String)
    (hq : '\n' ∉ (strconv.Quote T p).data) (hf : '\n' ∉ f.data) :
    splitLines (mainTmpl T p f).data =
      ["", "// Code generated by go114-fuzz-build; DO NOT EDIT.", "", "// +build ignore", "",
        "package main", "", "import (", "\t\x22unsafe\x22", ""].map String.data
      ++ [("\ttarget " ++ strconv.Quote T p).data]
      ++ [")", "", "// #include <stdint.h>", "import \x22C\x22", "",
        "//export LPBMutatorTestOneInput",
        "func LPBMutatorTestOneInput(data *C.char, size C.size_t) C.int \x7b",
        "\t// TODO(mdempsky): Use unsafe.Slice once golang.org/issue/19367 is accepted.",
        "\ts := (*[1<<30]byte)(unsafe.Pointer(data))[:size:size]"].map String.data
      ++ [("\ttarget." ++ f ++ "(s)").data]
      ++ ["\treturn 0", "\x7d", "", "func main() \x7b", "\x7d", ""].map String.data := by
  have l1 : splitLines "\n// Code generated by go114-fuzz-build; DO NOT EDIT.\n\n// +build ignore\n\npackage main\n\nimport (\n\t\x22unsafe\x22\n".data
      = ["", "// Code generated by go114-fuzz-build; DO NOT EDIT.", "", "// +build ignore", "",
        "package main", "", "import (", "\t\x22unsafe\x22", ""].map String.data := by decide
  have l2 : splitLines ")\n\n// #include <stdint.h>\nimport \x22C\x22\n\n//export LPBMutatorTestOneInput\nfunc LPBMutatorTestOneInput(data *C.char, size C.size_t) C.int \x7b\n\t// TODO(mdempsky): Use unsafe.Slice once golang.org/issue/19367 is accepted.\n\ts := (*[1<<30]byte)(unsafe.Pointer(data))[:size:size]".data
      = [")", "", "// #include <stdint.h>", "import \x22C\x22", "",
        "//export LPBMutatorTestOneInput",
        "func LPBMutatorTestOneInput(data *C.char, size C.size_t) C.int \x7b",
        "\t// TODO(mdempsky): Use unsafe.Slice once golang.org/issue/19367 is accepted.",
        "\ts := (*[1<<30]byte)(unsafe.Pointer(data))[:size:size]"].map String.data := by decide
  have l3 : splitLines "\treturn 0\n\x7d\n\nfunc main() \x7b\n\x7d\n".data
      = ["\treturn 0", "\x7d", "", "func main() \x7b", "\x7d", ""].map String.data := by decide
  have n1 : '\n' ∉ "\ttarget ".data ++ (strconv.Quote T p).data := by
    intro h
    rcases List.mem_append.mp h with h | h
    · exact absurd h (by decide)
    · exact hq h
  have n2 : '\n' ∉ "\ttarget.".data ++ (f.data ++ "(s)".data) := by
    intro h
    rcases List.mem_append.mp h with h | h
    · exact absurd h (by decide)
    · rcases List.mem_append.mp h with h | h
      · exact hf h
      · exact absurd h (by decide)
  have shape : (mainTmpl T p f).data
      = "\n// Code generated by go114-fuzz-build; DO NOT EDIT.\n\n// +build ignore\n\npackage main\n\nimport (\n\t\x22unsafe\x22\n".data
        ++ '\n' :: (("\ttarget ".data ++ (strconv.Quote T p).data)
        ++ '\n' :: (")\n\n// #include <stdint.h>\nimport \x22C\x22\n\n//export LPBMutatorTestOneInput\nfunc LPBMutatorTestOneInput(data *C.char, size C.size_t) C.int \x7b\n\t// TODO(mdempsky): Use unsafe.Slice once golang.org/issue/19367 is accepted.\n\ts := (*[1<<30]byte)(unsafe.Pointer(data))[:size:size]".data
        ++ '\n' :: (("\ttarget.".data ++ (f.data ++ "(s)".data))
        ++ '\n' :: "\treturn 0\n\x7d\n\nfunc main() \x7b\n\x7d\n".data))) := by
    unfold mainTmpl
    simp
  rw [shape, splitLines_append_newline, splitLines_append_newline, splitLines_append_newline,
    splitLines_append_newline, splitLines_of_not_mem _ n1, splitLines_of_not_mem _ n2, l1, l2, l3]
  simp only [String.data_append, List.append_assoc]


theorem strconv.hex_ne_newline (n : Nat) : strconv.hex n ≠ '\n' := by
  unfold strconv.hex
  have h : n % 16 < 16 := Nat.mod_lt _ (by norm_num)
  interval_cases (n % 16) <;> decide

theorem strconv.IsPrint_newline (T : Tables) : strconv.IsPrint T '\n' = false := by
  rfl

/-- An escaped rune is the rune itself or starts with a backslash. -/
theorem strconv.appendEscapedRune_cases (T : Tables) (r : Char) :
    strconv.appendEscapedRune T r = [r] ∨
      (strconv.appendEscapedRune T r).head? = some '\\' := by
  unfold strconv.appendEscapedRune
  by_cases h1 : r = '\x22' ∨ r = '\\'
  · right; rw [if_pos h1]; rfl
  rw [if_neg h1]
  by_cases h2 : strconv.IsPrint T r = true
  · left; rw [if_pos h2]
  rw [if_neg h2]
  right
  repeat' split
  all_goals rfl

theorem strconv.newline_not_mem_escaped (T : Tables) (r : Char) :
    '\n' ∉ strconv.appendEscapedRune T r := by
  have hx : ∀ n, ¬ '\n' = strconv.hex n := fun n e => strconv.hex_ne_newline n e.symm
  unfold strconv.appendEscapedRune
  by_cases h1 : r = '\x22' ∨ r = '\\'
  · rw [if_pos h1]
    rcases h1 with rfl | rfl <;> decide
  rw [if_neg h1]
  by_cases h2 : strconv.IsPrint T r = true
  · rw [if_pos h2]
    simp only [List.mem_singleton]
    rintro rfl
    rw [strconv.IsPrint_newline] at h2
    exact absurd h2 (by decide)
  rw [if_neg h2]
  repeat' split
  all_goals simp [hx]

theorem strconv.newline_not_mem_Quote (T : Tables) (p : String) :
    '\n' ∉ (strconv.Quote T p).data := by
  unfold strconv.Quote
  simp only [List.mem_cons, List.mem_append, List.mem_flatMap, List.mem_singleton, not_or]
  refine ⟨by decide, ?_, by decide⟩
  rintro ⟨r, _, hr⟩
  exact strconv.newline_not_mem_escaped T r hr

/-- Escaping changes nothing in a text whose escaped form has no backslash. -/
theorem strconv.escaped_eq (T : Tables) (l l2 : List Char) (hb : '\\' ∉ l2)
    (e : l.flatMap (strconv.appendEscapedRune T) = l2) : l = l2 := by
  induction l generalizing l2 with
  | nil => simpa using e
  | cons c cs ih =>
    rw [List.flatMap_cons] at e
    rcases strconv.appendEscapedRune_cases T c with h | h
    · rw [h] at e
      subst e
      have hb2 : '\\' ∉ cs.flatMap (strconv.appendEscapedRune T) := fun m => hb (by simp [m])
      have := ih _ hb2 rfl
      simp [← this]
    · subst e
      cases hc : strconv.appendEscapedRune T c with
      | nil => simp [hc] at h
      | cons x xs =>
        rw [hc] at h hb
        simp only [List.head?_cons, Option.some.injEq] at h
        subst h
        exact absurd (by simp) hb

/-- The quoted form of a path is a given text without backslash between double quotes
only for that text. -/
theorem strconv.Quote_eq (T : Tables) (p s : String) (hb : '\\' ∉ s.data)
    (h : (strconv.Quote T p).data = '\x22' :: (s.data ++ ['\x22'])) : p = s := by
  unfold strconv.Quote at h
  simp only [List.cons.injEq, true_and] at h
  have h2 := List.append_cancel_right h
  exact String.ext (strconv.escaped_eq T _ _ hb h2)

theorem token.identLoop_mem (T : Tables) (cs : List Char) :
    ∀ i, token.identLoop T i cs = true →
      ∀ c ∈ cs, unicode.IsLetter T c = true ∨ c = '_' ∨ unicode.IsDigit T c = true := by
  induction cs with
  | nil => intro i _ c hc; simp at hc
  | cons d ds ih =>
    intro i h c hc
    unfold token.identLoop at h
    split at h
    · exact absurd h (by decide)
    · rename_i hcond
      rcases List.mem_cons.mp hc with rfl | hc
      · by_cases hl : unicode.IsLetter T c = true
        · exact Or.inl hl
        · by_cases hu : c = '_'
          · exact Or.inr (Or.inl hu)
          · right; right
            by_contra hd
            apply hcond
            simp [hl, hu, hd]
      · exact ih _ h c hc

/-- An identifier holds no line feed and no double quote. -/
theorem token.IsIdentifier_chars (T : Tables) (f : String)
    (h : token.IsIdentifier T f = true) : '\n' ∉ f.data ∧ '\x22' ∉ f.data := by
  have a1 : unicode.IsLetter T '\n' = false := rfl
  have a2 : unicode.IsDigit T '\n' = false := rfl
  have b1 : unicode.IsLetter T '\x22' = false := rfl
  have b2 : unicode.IsDigit T '\x22' = false := rfl
  unfold token.IsIdentifier at h
  split at h
  · exact absurd h (by decide)
  · have hm := token.identLoop_mem T f.data 0 h
    constructor
    · intro hc
      rcases hm _ hc with h1 | h1 | h1
      · rw [a1] at h1; exact absurd h1 (by decide)
      · exact absurd h1 (by decide)
      · rw [a2] at h1; exact absurd h1 (by decide)
    · intro hc
      rcases hm _ hc with h1 | h1 | h1
      · rw [b1] at h1; exact absurd h1 (by decide)
      · exact absurd h1 (by decide)
      · rw [b2] at h1; exact absurd h1 (by decide)

theorem exportAnnotations_mainTmpl (T : Tables) (p f : String)
    (hf : token.IsIdentifier T f = true) : exportAnnotations (mainTmpl T p f) = 1 := by
  have hq := strconv.newline_not_mem_Quote T p
  have hf2 := (token.IsIdentifier_chars T f hf).1
  unfold exportAnnotations
  rw [mainTmpl_lines T p f hq hf2]
  simp [List.countP_cons]

theorem strconv.Quote_data (T : Tables) (p : String) :
    (strconv.Quote T p).data
      = '\x22' :: (p.data.flatMap (strconv.appendEscapedRune T) ++ ['\x22']) := rfl

/-- The harness text holds one import under the alias `target`: the quoted path. -/
theorem targetImports_mainTmpl (T : Tables) (p f : String)
    (hf : token.IsIdentifier T f = true) :
    targetImports (mainTmpl T p f) = [(strconv.Quote T p).data] := by
  have hq := strconv.newline_not_mem_Quote T p
  have hf2 := (token.IsIdentifier_chars T f hf).1
  have e1 : targetImportOfLine ("\ttarget " ++ strconv.Quote T p).data
      = some (strconv.Quote T p).data := by
    rw [String.data_append, strconv.Quote_data]
    simp [targetImportOfLine, trimLeft, List.dropWhile_cons]
  have e2 : targetImportOfLine ("\ttarget." ++ f ++ "(s)").data = none := by
    rw [String.data_append, String.data_append]
    simp [targetImportOfLine, trimLeft, List.dropWhile_cons]
  unfold targetImports
  rw [mainTmpl_lines T p f hq hf2]
  simp only [List.filterMap_append, List.filterMap_cons, List.filterMap_nil, e1, e2]
  rfl

theorem dropWhile_append_of_not_mem (l rest : List Char) (h : '\x22' ∉ l) :
    (l ++ rest).dropWhile (fun c => c != '\x22') = rest.dropWhile (fun c => c != '\x22') := by
  induction l with
  | nil => rfl
  | cons c cs ih =>
    have hc : c ≠ '\x22' := fun e => h (by simp [e])
    have hcs : '\x22' ∉ cs := fun e => h (by simp [e])
    simp [List.dropWhile_cons, hc, ih hcs]

theorem importsOf_mainTmpl (T : Tables) (p f : String)
    (hf : token.IsIdentifier T f = true) (h1 : p ≠ "unsafe") (h2 : p ≠ "C") :
    importsOf T p (mainTmpl T p f) = 1 := by
  have hq := strconv.newline_not_mem_Quote T p
  have hf1 := (token.IsIdentifier_chars T f hf).1
  have hf2 := (token.IsIdentifier_chars T f hf).2
  have q0 : (strconv.Quote T p).data ≠ [] := by rw [strconv.Quote_data]; simp
  have q1 : (strconv.Quote T p).data ≠ "\x22unsafe\x22".data := by
    intro e
    exact h1 (strconv.Quote_eq T p "unsafe" (by decide) (by rw [e]; decide))
  have q2 : (strconv.Quote T p).data ≠ "\x22C\x22".data := by
    intro e
    exact h2 (strconv.Quote_eq T p "C" (by decide) (by rw [e]; decide))
  have d1 : ("\ttarget " ++ strconv.Quote T p).data.dropWhile (fun c => c != '\x22')
      = (strconv.Quote T p).data := by
    rw [String.data_append, dropWhile_append_of_not_mem _ _ (by decide), strconv.Quote_data]
    simp [List.dropWhile_cons]
  have d2 : ("\ttarget." ++ f ++ "(s)").data.dropWhile (fun c => c != '\x22') = [] := by
    rw [String.data_append, String.data_append, List.append_assoc,
      dropWhile_append_of_not_mem _ _ (by decide), dropWhile_append_of_not_mem _ _ hf2]
    decide
  unfold importsOf
  rw [mainTmpl_lines T p f hq hf1]
  simp only [List.countP_append, List.countP_cons, List.countP_nil, d1, d2, List.map]
  have q1b : ¬ ['\x22', 'u', 'n', 's', 'a', 'f', 'e', '\x22'] = (strconv.Quote T p).data :=
    fun e => q1 (by rw [← e])
  have q2b : ¬ ['\x22', 'C', '\x22'] = (strconv.Quote T p).data :=
    fun e => q2 (by rw [← e])
  simp [List.dropWhile_cons, q0, q1b, q2b]


theorem strconv.appendEscapedRune_plain (T : Tables) (c : Char)
    (h1 : 0x20 ≤ c.toNat ∧ c.toNat ≤ 0x7E) (h2 : c ≠ '\x22') (h3 : c ≠ '\\') :
    strconv.appendEscapedRune T c = [c] := by
  have hp : strconv.IsPrint T c = true := by
    unfold strconv.IsPrint
    rw [if_pos (by omega), if_pos h1]
  unfold strconv.appendEscapedRune
  rw [if_neg (by simp [h2, h3]), if_pos hp]

/-- The quoted form of a plain text is the text between double quotes. -/
theorem strconv.Quote_plain (T : Tables) (s : String) (h : isPlain s = true) :
    strconv.Quote T s = "\x22" ++ s ++ "\x22" := by
  apply String.ext
  have e : s.data.flatMap (strconv.appendEscapedRune T) = s.data := by
    unfold isPlain at h
    generalize s.data = l at h
    induction l with
    | nil => rfl
    | cons c cs ih =>
      simp only [List.all_cons, Bool.and_eq_true, decide_eq_true_eq, bne_iff_ne, ne_eq] at h
      obtain ⟨⟨⟨h1, h2⟩, h3⟩, h4⟩ := h
      rw [List.flatMap_cons, strconv.appendEscapedRune_plain T c h1 h2 h3, ih]
      · rfl
      · simpa using h4
  rw [strconv.Quote_data, e]
  simp

/-- The harness text holds the line that imports the quoted path under `target`. -/
theorem target_line_mem (T : Tables) (p f : String) (hf : token.IsIdentifier T f = true) :
    ("\ttarget " ++ strconv.Quote T p).data ∈ splitLines (mainTmpl T p f).data := by
  rw [mainTmpl_lines T p f (strconv.newline_not_mem_Quote T p) (token.IsIdentifier_chars T f hf).1]
  simp

/-- The import of a path in the harness text: the only import under the alias `target`
is the quoted path, it stands in a line of its own after `target`, and for a plain path
that line is `target "path"`. -/
theorem harness_target_import (T : Tables) (p f : String)
    (hf : token.IsIdentifier T f = true) :
    targetImports (mainTmpl T p f) = [(strconv.Quote T p).data] ∧
    ("\ttarget " ++ strconv.Quote T p).data ∈ splitLines (mainTmpl T p f).data ∧
    (isPlain p = true →
      ("\ttarget \x22" ++ p ++ "\x22").data ∈ splitLines (mainTmpl T p f).data) := by
  refine ⟨targetImports_mainTmpl T p f hf, target_line_mem T p f hf, ?_⟩
  intro hp
  have := target_line_mem T p f hf
  rw [strconv.Quote_plain T p hp] at this
  simpa [String.data_append, List.append_assoc] using this

/-- C9 (as the code has it): the harness text for an import path and an entry-function
name is a text that depends on the path alone, ending in the call site `target.`, then
the name, then a fixed text that starts with `(s)`; for a valid name the text holds
exactly one foreign-export annotation and exactly one import under the alias `target`,
the import of the path (for a plain path the line `target "path"`), and that import is
the only import of the path in the text unless the path is `unsafe` or `C`, which the
skeleton imports itself. -/
theorem harness_shape (T : Tables) (p : String) :
    ∃ pre suf : String,
      "\ttarget.".data <:+ pre.data ∧ "(s)".data <+: suf.data ∧
      ∀ f : String, mainTmpl T p f = pre ++ f ++ suf ∧
        (token.IsIdentifier T f = true →
          exportAnnotations (mainTmpl T p f) = 1 ∧
          targetImports (mainTmpl T p f) = [(strconv.Quote T p).data] ∧
          (isPlain p = true →
            ("\ttarget \x22" ++ p ++ "\x22").data ∈ splitLines (mainTmpl T p f).data) ∧
          (p ≠ "unsafe" → p ≠ "C" → importsOf T p (mainTmpl T p f) = 1)) := by
  refine ⟨"\n// Code generated by go114-fuzz-build; DO NOT EDIT.\n\n// +build ignore\n\npackage main\n\nimport (\n\t\x22unsafe\x22\n\n\ttarget "
      ++ strconv.Quote T p
      ++ "\n)\n\n// #include <stdint.h>\nimport \x22C\x22\n\n//export LPBMutatorTestOneInput\nfunc LPBMutatorTestOneInput(data *C.char, size C.size_t) C.int \x7b\n\t// TODO(mdempsky): Use unsafe.Slice once golang.org/issue/19367 is accepted.\n\ts := (*[1<<30]byte)(unsafe.Pointer(data))[:size:size]\n\ttarget.",
    "(s)\n\treturn 0\n\x7d\n\nfunc main() \x7b\n\x7d\n", ?_, ?_, ?_⟩
  · rw [String.data_append]
    exact List.IsSuffix.trans (by decide) (List.suffix_append _ _)
  · decide
  · intro f
    refine ⟨rfl, fun hf => ⟨exportAnnotations_mainTmpl T p f hf,
      targetImports_mainTmpl T p f hf, (harness_target_import T p f hf).2.2,
      importsOf_mainTmpl T p f hf⟩⟩

/-- C9 (as the claim has it) fails: the harness text for the import path `unsafe` holds
two imports of `unsafe`, the one of the skeleton and the one under the alias `target`
(and likewise two imports of `C` for the path `C`). -/
theorem harness_imports_counterexample :
    importsOf asciiTables "unsafe" (mainTmpl asciiTables "unsafe" "Fuzz") = 2 ∧
    importsOf asciiTables "C" (mainTmpl asciiTables "C" "Fuzz") = 2 ∧
    token.IsIdentifier asciiTables "Fuzz" = true ∧ token.IsExported asciiTables "Fuzz" = true := by
  decide

/-! ## What the run does with the resolved package -/

/-- The text a run of `main` writes into the temporary file, if it writes one: the
entry-function name passed the check, the query matched one package without errors, and
the text is the template executed on the normalised import path of that package and the
entry-function name. -/
theorem main_execute (T : Tables) (W : World) (fl : Flags) (file text : String)
    (h : Event.Execute file text ∈ (main T W fl).trace) :
    ∃ path pkg, fl.args = [path] ∧ token.IsIdentifier T fl.flagFunc = true ∧
      W.Load (buildFlags fl) ("pattern=" ++ path) = .ok [pkg] ∧
      text = mainTmpl T (importPath pkg.PkgPath path) fl.flagFunc := by
  rcases main_reaches T W fl with ⟨path, pkg, hargs, hI, _, _, hL, _, e⟩ | ⟨_, hall⟩
  · rw [e] at h
    rcases mainFrom_execute T W fl path pkg _ file text h with h | ⟨_, ht⟩
    · simp at h
    · exact ⟨path, pkg, hargs, hI, hL, ht⟩
  · have := hall _ h
    simp [Event.early] at this

/-- C8: in the harness text that a run writes, the one import under the alias `target`
is the quoted path the user gave when the path of the resolved package starts with `_/`,
and the quoted path of the resolved package otherwise; the import stands in a line of
its own, which for a plain path is `target "path"`. -/
theorem harness_import_path (T : Tables) (W : World) (fl : Flags) (file text u : String)
    (pkg : Package) (h : Event.Execute file text ∈ (main T W fl).trace)
    (hargs : fl.args = [u])
    (hL : W.Load (buildFlags fl) ("pattern=" ++ u) = .ok [pkg]) :
    ((∃ rest : String, pkg.PkgPath = "_/" ++ rest) →
      targetImports text = [(strconv.Quote T u).data] ∧
      ("\ttarget " ++ strconv.Quote T u).data ∈ splitLines text.data ∧
      (isPlain u = true → ("\ttarget \x22" ++ u ++ "\x22").data ∈ splitLines text.data)) ∧
    ((¬ ∃ rest : String, pkg.PkgPath = "_/" ++ rest) →
      targetImports text = [(strconv.Quote T pkg.PkgPath).data] ∧
      ("\ttarget " ++ strconv.Quote T pkg.PkgPath).data ∈ splitLines text.data ∧
      (isPlain pkg.PkgPath = true →
        ("\ttarget \x22" ++ pkg.PkgPath ++ "\x22").data ∈ splitLines text.data)) := by
  obtain ⟨u2, pkg2, hargs2, hI, hL2, ht⟩ := main_execute T W fl file text h
  rw [hargs] at hargs2
  obtain rfl : u = u2 := by simpa using hargs2
  rw [hL] at hL2
  obtain rfl : pkg = pkg2 := by simpa using hL2
  constructor
  · intro hp
    have e : importPath pkg.PkgPath u = u := by
      simp [importPath, (strings.HasPrefix_iff pkg.PkgPath "_/").mpr hp]
    rw [ht, e]
    exact harness_target_import T u fl.flagFunc hI
  · intro hp
    have hq : strings.HasPrefix pkg.PkgPath "_/" = false := by
      cases hq : strings.HasPrefix pkg.PkgPath "_/" with
      | false => rfl
      | true => exact absurd ((strings.HasPrefix_iff pkg.PkgPath "_/").mp hq) hp
    have e : importPath pkg.PkgPath u = pkg.PkgPath := by
      simp [importPath, hq]
    rw [ht, e]
    exact harness_target_import T pkg.PkgPath fl.flagFunc hI

/-- C8 at a run: for `./sample` resolved to `_/home/user/sample` the harness written
imports `"./sample"` under the alias `target`, in the line `target "./sample"`, and has
no line `target "_/home/user/sample"`. -/
theorem harness_import_path_witness :
    Event.Execute "main.123456789.go" (mainTmpl asciiTables "./sample" "Fuzz")
      ∈ (main asciiTables localWorld localFlags).trace ∧
    (targetImports (mainTmpl asciiTables "./sample" "Fuzz")
        = [(strconv.Quote asciiTables "./sample").data] ∧
      ("\ttarget " ++ strconv.Quote asciiTables "./sample").data
        ∈ splitLines (mainTmpl asciiTables "./sample" "Fuzz").data ∧
      (isPlain "./sample" = true →
        ("\ttarget \x22" ++ "./sample" ++ "\x22").data
          ∈ splitLines (mainTmpl asciiTables "./sample" "Fuzz").data)) ∧
    isPlain "./sample" = true ∧
    targetImports (mainTmpl asciiTables "./sample" "Fuzz") = ["\x22./sample\x22".data] ∧
    "\ttarget \x22_/home/user/sample\x22".data
      ∉ splitLines (mainTmpl asciiTables "./sample" "Fuzz").data :=
  ⟨by decide,
    (harness_import_path asciiTables localWorld localFlags "main.123456789.go"
      (mainTmpl asciiTables "./sample" "Fuzz") "./sample" ⟨"_/home/user/sample", "sample"⟩
      (by decide) rfl rfl).1 ⟨"home/user/sample", by decide⟩,
    by decide, by decide, by decide⟩

/-- When the temporary file was created and the template was written and closed without
error, the run starts the compiler. -/
theorem mainFrom_starts_command (T : Tables) (W : World) (fl : Flags) (path : String)
    (pkg : Package) (tr : List Event) (mainFile : String)
    (hT : W.TempFile "." "main.*.go" = .ok mainFile)
    (hX : W.Execute mainFile (mainTmpl T (importPath pkg.PkgPath path) fl.flagFunc) = none)
    (hC : W.Close mainFile = none) :
    Event.Command "go" (args fl pkg.Name mainFile) ∈ (mainFrom T W fl path pkg tr).trace := by
  cases hR : W.Run "go" (args fl pkg.Name mainFile) with
  | some err => simp [mainFrom, hT, hX, hC, hR, fatal]
  | none => simp [mainFrom, hT, hX, hC, hR]

/-- When the temporary file was created, the run writes the harness into it. -/
theorem mainFrom_writes (T : Tables) (W : World) (fl : Flags) (path : String)
    (pkg : Package) (tr : List Event) (mainFile : String)
    (hT : W.TempFile "." "main.*.go" = .ok mainFile) :
    Event.Execute mainFile (mainTmpl T (importPath pkg.PkgPath path) fl.flagFunc)
      ∈ (mainFrom T W fl path pkg tr).trace := by
  rcases mainFrom_cases T W fl path pkg tr with
    ⟨err, hT2, _⟩ | ⟨mainFile2, hT2, ⟨err, e⟩ | ⟨err, e⟩ | ⟨err, e⟩ | e⟩
  · rw [hT] at hT2; simp at hT2
  all_goals
    rw [hT] at hT2
    obtain rfl : mainFile = mainFile2 := by simpa using hT2
    rw [e]
    simp


/-- The import under the alias `target` of the harness for a resolved package path and a
user-supplied path: the package path, or the user-supplied path when the package path
starts with `_/`; for a plain path the import is the line `target "path"`. -/
theorem targetImports_importPath (T : Tables) (p u f : String)
    (hI : token.IsIdentifier T f = true) :
    ((¬ ∃ rest : String, p = "_/" ++ rest) →
      targetImports (mainTmpl T (importPath p u) f) = [(strconv.Quote T p).data] ∧
      (isPlain p = true →
        ("\ttarget \x22" ++ p ++ "\x22").data
          ∈ splitLines (mainTmpl T (importPath p u) f).data)) ∧
    ((∃ rest : String, p = "_/" ++ rest) →
      targetImports (mainTmpl T (importPath p u) f) = [(strconv.Quote T u).data] ∧
      (isPlain u = true →
        ("\ttarget \x22" ++ u ++ "\x22").data
          ∈ splitLines (mainTmpl T (importPath p u) f).data)) := by
  constructor
  · intro hp
    have hq : strings.HasPrefix p "_/" = false := by
      cases hq : strings.HasPrefix p "_/" with
      | false => rfl
      | true => exact absurd ((strings.HasPrefix_iff p "_/").mp hq) hp
    have e : importPath p u = p := by simp [importPath, hq]
    rw [e]
    exact ⟨(harness_target_import T p f hI).1, (harness_target_import T p f hI).2.2⟩
  · intro hp
    have e : importPath p u = u := by
      simp [importPath, (strings.HasPrefix_iff p "_/").mpr hp]
    rw [e]
    exact ⟨(harness_target_import T u f hI).1, (harness_target_import T u f hI).2.2⟩

/-- C3 (as the code has it): when the package query answers with a number of packages
other than one, the run ends with status 1 having made no call but the query, the
printing of its errors and the fatal log line: no temporary file is created and no
compiler is started.  When the query reports package errors the run exits with status 1
right after printing them.  When the query answers with exactly one package and reports
no package error, the run goes on with that package: its next call creates the temporary
file; the harness it writes imports under the alias `target` the path of that package
(the path the user gave when the package path starts with `_/`); and the compiler it
starts gets after `-o` the name of that package followed by `-fuzz.a` when the user gave
no output path. -/
theorem resolve_one_package (T : Tables) (W : World) (fl : Flags) (path : String)
    (pkgs : List Package)
    (hI : token.IsIdentifier T fl.flagFunc = true) (hE : token.IsExported T fl.flagFunc = true)
    (hargs : fl.args = [path]) (hc : strings.Contains path "..." = false)
    (hL : W.Load (buildFlags fl) ("pattern=" ++ path) = .ok pkgs) :
    (pkgs.length ≠ 1 →
      (main T W fl).exit = 1 ∧
      (main T W fl).trace.any Event.isTempFile = false ∧
      (main T W fl).trace.any Event.isCommand = false ∧
      ∀ e ∈ (main T W fl).trace, e.early = true) ∧
    (W.PrintErrors pkgs ≠ 0 →
      main T W fl = ⟨[.Load (buildFlags fl) ("pattern=" ++ path), .PrintErrors pkgs], 1⟩) ∧
    (∀ pkg, pkgs = [pkg] → W.PrintErrors pkgs = 0 →
      (∃ created rest, (main T W fl).trace =
        [.Load (buildFlags fl) ("pattern=" ++ path), .PrintErrors [pkg],
          .TempFile "." "main.*.go" created] ++ rest) ∧
      (∀ mainFile, W.TempFile "." "main.*.go" = .ok mainFile →
        ∃ text, Event.Execute mainFile text ∈ (main T W fl).trace ∧
          ((¬ ∃ rest : String, pkg.PkgPath = "_/" ++ rest) →
            targetImports text = [(strconv.Quote T pkg.PkgPath).data] ∧
            (isPlain pkg.PkgPath = true →
              ("\ttarget \x22" ++ pkg.PkgPath ++ "\x22").data ∈ splitLines text.data)) ∧
          ((∃ rest : String, pkg.PkgPath = "_/" ++ rest) →
            targetImports text = [(strconv.Quote T path).data] ∧
            (isPlain path = true →
              ("\ttarget \x22" ++ path ++ "\x22").data ∈ splitLines text.data)) ∧
          (W.Execute mainFile text = none → W.Close mainFile = none →
            ∃ as, Event.Command "go" as ∈ (main T W fl).trace ∧
              as[0]? = some "build" ∧ as[1]? = some "-o" ∧
              (fl.flagO = "" → as[2]? = some (pkg.Name ++ "-fuzz.a")) ∧
              (fl.flagO ≠ "" → as[2]? = some fl.flagO)))) := by
  refine ⟨?_, ?_, ?_⟩
  · intro hn
    by_cases hP : W.PrintErrors pkgs = 0
    · rw [main_not_one T W fl path pkgs hI hE hargs hc hL hP hn]
      simp [Event.isTempFile, Event.isCommand, Event.early]
    · rw [main_print_errors T W fl path pkgs hI hE hargs hc hL hP]
      simp [Event.isTempFile, Event.isCommand, Event.early]
  · intro hP
    exact main_print_errors T W fl path pkgs hI hE hargs hc hL hP
  · rintro pkg rfl hP
    have e := main_one T W fl path pkg hI hE hargs hc hL hP
    constructor
    · rw [e]
      rcases mainFrom_cases T W fl path pkg
          [.Load (buildFlags fl) ("pattern=" ++ path), .PrintErrors [pkg]] with
        ⟨err, _, e⟩ | ⟨mainFile, hT, ⟨err, e⟩ | ⟨err, e⟩ | ⟨err, e⟩ | e⟩ <;>
      · rw [e]
        exact ⟨_, _, rfl⟩
    · intro mainFile hT
      have hw : Event.Execute mainFile (mainTmpl T (importPath pkg.PkgPath path) fl.flagFunc)
          ∈ (main T W fl).trace := by
        rw [e]; exact mainFrom_writes T W fl path pkg _ mainFile hT
      have himp := targetImports_importPath T pkg.PkgPath path fl.flagFunc hI
      refine ⟨_, hw, himp.1, himp.2, ?_⟩
      intro hX hC
      refine ⟨args fl pkg.Name mainFile, ?_, ?_, ?_, ?_, ?_⟩
      · rw [e]; exact mainFrom_starts_command T W fl path pkg _ mainFile hT hX hC
      · simp [args]
      · simp [args]
      · intro ho; simp [args, out, ho]
      · intro ho; simp [args, out, ho]

/-- C3 at three runs: no package matched, the run ends with status 1 without temporary
file or compiler; one package with a package error, the run exits after printing it; the
one package `sample`, the run creates the temporary file, writes a harness that imports
`"example.com/sample"` under the alias `target` and starts the compiler with
`-o sample-fuzz.a`. -/
theorem resolve_one_package_witness :
    ((main asciiTables (matchesWorld []) sampleFlags).exit = 1 ∧
      (main asciiTables (matchesWorld []) sampleFlags).trace.any Event.isTempFile = false ∧
      (main asciiTables (matchesWorld []) sampleFlags).trace.any Event.isCommand = false ∧
      ∀ e ∈ (main asciiTables (matchesWorld []) sampleFlags).trace, e.early = true) ∧
    main asciiTables (packageErrorWorld [⟨"example.com/sample", "sample"⟩]) sampleFlags
      = ⟨[.Load (buildFlags sampleFlags) ("pattern=" ++ "example.com/sample"),
          .PrintErrors [⟨"example.com/sample", "sample"⟩]], 1⟩ ∧
    (∃ text, Event.Execute "main.123456789.go" text
        ∈ (main asciiTables sampleWorld sampleFlags).trace ∧
      ((¬ ∃ rest : String, "example.com/sample" = "_/" ++ rest) →
        targetImports text = [(strconv.Quote asciiTables "example.com/sample").data] ∧
        (isPlain "example.com/sample" = true →
          ("\ttarget \x22" ++ "example.com/sample" ++ "\x22").data ∈ splitLines text.data)) ∧
      ((∃ rest : String, "example.com/sample" = "_/" ++ rest) →
        targetImports text = [(strconv.Quote asciiTables "example.com/sample").data] ∧
        (isPlain "example.com/sample" = true →
          ("\ttarget \x22" ++ "example.com/sample" ++ "\x22").data ∈ splitLines text.data)) ∧
      (sampleWorld.Execute "main.123456789.go" text = none →
        sampleWorld.Close "main.123456789.go" = none →
        ∃ as, Event.Command "go" as ∈ (main asciiTables sampleWorld sampleFlags).trace ∧
          as[0]? = some "build" ∧ as[1]? = some "-o" ∧
          (sampleFlags.flagO = "" → as[2]? = some ("sample" ++ "-fuzz.a")) ∧
          (sampleFlags.flagO ≠ "" → as[2]? = some sampleFlags.flagO))) ∧
    strconv.Quote asciiTables "example.com/sample" = "\x22example.com/sample\x22" ∧
    isPlain "example.com/sample" = true :=
  ⟨(resolve_one_package asciiTables (matchesWorld []) sampleFlags "example.com/sample" []
      (by decide) (by decide) rfl (by decide) rfl).1 (by decide),
    (resolve_one_package asciiTables (packageErrorWorld [⟨"example.com/sample", "sample"⟩])
      sampleFlags "example.com/sample" [⟨"example.com/sample", "sample"⟩]
      (by decide) (by decide) rfl (by decide) rfl).2.1 (by decide),
    ((resolve_one_package asciiTables sampleWorld sampleFlags "example.com/sample"
      [⟨"example.com/sample", "sample"⟩]
      (by decide) (by decide) rfl (by decide) rfl).2.2 _ rfl rfl).2 "main.123456789.go" rfl,
    by decide, by decide⟩

/-- C3 (as the claim has it) fails: a query that matches exactly one package and reports
a package error for it ends the run with status 1 right after the errors are printed, so
the run does not proceed; and for the one package `_/home/user/sample`, matched for the
path `./sample`, the harness imports `"./sample"`, not the path of the package. -/
theorem resolve_one_package_counterexample :
    main asciiTables (packageErrorWorld [⟨"example.com/sample", "sample"⟩]) sampleFlags
      = ⟨[.Load (buildFlags sampleFlags) "pattern=example.com/sample",
          .PrintErrors [⟨"example.com/sample", "sample"⟩]], 1⟩ ∧
    (main asciiTables (packageErrorWorld [⟨"example.com/sample", "sample"⟩])
      sampleFlags).trace.any Event.isTempFile = false ∧
    Event.Execute "main.123456789.go" (mainTmpl asciiTables "./sample" "Fuzz")
      ∈ (main asciiTables localWorld localFlags).trace ∧
    targetImports (mainTmpl asciiTables "./sample" "Fuzz") = ["\x22./sample\x22".data] ∧
    localWorld.Load (buildFlags localFlags) "pattern=./sample"
      = .ok [⟨"_/home/user/sample", "sample"⟩] := by
  refine ⟨by decide, by decide, by decide, by decide, rfl⟩

/-- C4 (as the claim has it) fails: a query that matches two packages and reports a
package error ends the run without any fatal message; and a query that matches no
package ends in the same fatal message as a query that matches two, `package path
matched multiple packages`, which does not say that no package was found. -/
theorem not_one_message_counterexample :
    (main asciiTables (packageErrorWorld
        [⟨"example.com/sample", "sample"⟩, ⟨"example.com/sample/sub", "sub"⟩])
        sampleFlags).fatalMsg = none ∧
    (main asciiTables (packageErrorWorld
        [⟨"example.com/sample", "sample"⟩, ⟨"example.com/sample/sub", "sub"⟩])
        sampleFlags).exit = 1 ∧
    (main asciiTables (matchesWorld []) sampleFlags).fatalMsg
      = (main asciiTables (matchesWorld
          [⟨"example.com/sample", "sample"⟩, ⟨"example.com/sample/sub", "sub"⟩])
          sampleFlags).fatalMsg ∧
    (main asciiTables (matchesWorld []) sampleFlags).fatalMsg
      = some "package path matched multiple packages" := by
  decide

/-- C4 (as the code has it): when the query reports no package error and matches more
than one package, the run ends with status 1 in the fatal message `package path matched
multiple packages`; when the query reports package errors, the run ends with status 1
right after printing them, with no fatal message. -/
theorem not_one_message (T : Tables) (W : World) (fl : Flags) (path : String)
    (pkgs : List Package)
    (hI : token.IsIdentifier T fl.flagFunc = true) (hE : token.IsExported T fl.flagFunc = true)
    (hargs : fl.args = [path]) (hc : strings.Contains path "..." = false)
    (hL : W.Load (buildFlags fl) ("pattern=" ++ path) = .ok pkgs) :
    (W.PrintErrors pkgs = 0 → 2 ≤ pkgs.length →
      (main T W fl).fatalMsg = some "package path matched multiple packages" ∧
      (main T W fl).exit = 1) ∧
    (W.PrintErrors pkgs ≠ 0 →
      (main T W fl).fatalMsg = none ∧ (main T W fl).exit = 1 ∧
      (main T W fl).trace
        = [.Load (buildFlags fl) ("pattern=" ++ path), .PrintErrors pkgs]) := by
  constructor
  · intro hP hn
    rw [main_not_one T W fl path pkgs hI hE hargs hc hL hP (by omega)]
    simp [Outcome.fatalMsg]
  · intro hP
    rw [main_print_errors T W fl path pkgs hI hE hargs hc hL hP]
    simp [Outcome.fatalMsg]

/-- C4 at two runs: two packages matched without package error, and two packages matched
with a package error. -/
theorem not_one_message_witness :
    ((main asciiTables (matchesWorld
        [⟨"example.com/sample", "sample"⟩, ⟨"example.com/sample/sub", "sub"⟩])
        sampleFlags).fatalMsg = some "package path matched multiple packages" ∧
      (main asciiTables (matchesWorld
        [⟨"example.com/sample", "sample"⟩, ⟨"example.com/sample/sub", "sub"⟩])
        sampleFlags).exit = 1) ∧
    ((main asciiTables (packageErrorWorld
        [⟨"example.com/sample", "sample"⟩, ⟨"example.com/sample/sub", "sub"⟩])
        sampleFlags).fatalMsg = none ∧
      (main asciiTables (packageErrorWorld
        [⟨"example.com/sample", "sample"⟩, ⟨"example.com/sample/sub", "sub"⟩])
        sampleFlags).exit = 1 ∧
      (main asciiTables (packageErrorWorld
        [⟨"example.com/sample", "sample"⟩, ⟨"example.com/sample/sub", "sub"⟩])
        sampleFlags).trace
        = [.Load (buildFlags sampleFlags) ("pattern=" ++ "example.com/sample"),
          .PrintErrors [⟨"example.com/sample", "sample"⟩,
            ⟨"example.com/sample/sub", "sub"⟩]]) :=
  ⟨(not_one_message asciiTables (matchesWorld
      [⟨"example.com/sample", "sample"⟩, ⟨"example.com/sample/sub", "sub"⟩])
      sampleFlags "example.com/sample" _ (by decide) (by decide) rfl (by decide) rfl).1
      rfl (by decide),
    (not_one_message asciiTables (packageErrorWorld
      [⟨"example.com/sample", "sample"⟩, ⟨"example.com/sample/sub", "sub"⟩])
      sampleFlags "example.com/sample" _ (by decide) (by decide) rfl (by decide) rfl).2
      (by decide)⟩

end FuzzBuild
